import Mathlib

/-!
Verification of the terminal/session-management module (`terminal.rs`) of the
repository.  Rust strings are embedded as `List Char`; the global session
registry (a `HashMap` behind one mutex) is embedded as an association list with
lookup-first semantics; wall-clock time, the filesystem, process spawning and
stream I/O outcomes are passed in as explicit oracle arguments.  Every
definition is translated from the source functions of
`src/rust_native_build/src/terminal.rs`; the one definition written from the
specification's words instead is `resolveTargetSpec`, used to compare the
spec's directory-resolution description with the code's.
-/

namespace Terminal

/-- Embedding of a Rust `String` as a list of characters. -/
abbrev Str := List Char

/-- Coerce a Lean string literal into the `Str` embedding. -/
def str (s : String) : Str := s.data

/-- Embedding of Rust `str::starts_with`. -/
def strStartsWith (p s : Str) : Bool := List.isPrefixOf p s

/-- Embedding of Rust `str::trim` on the left: drop leading whitespace. -/
def trimLeft (s : Str) : Str := s.dropWhile Char.isWhitespace

/-- Embedding of Rust `str::trim` on the right: drop trailing whitespace. -/
def trimRight : Str → Str
  | [] => []
  | c :: cs =>
    match trimRight cs with
    | [] => if c.isWhitespace then [] else [c]
    | r => c :: r

/-- Embedding of Rust `str::trim`: drop whitespace from both ends. -/
def trim (s : Str) : Str := trimRight (trimLeft s)

/-- Embedding of `PathBuf::from(p).join(q)`: an absolute `q` replaces `p`,
otherwise `q` is appended after a separator. -/
def pathJoin (p q : Str) : Str :=
  if strStartsWith (str "/") q then q
  else if p = [] then q
  else if p.getLast? = some '/' then p ++ q
  else p ++ '/' :: q

/-- Part of the embedding of Rust `str::lines`: a line terminated by `\r\n`
has the carriage return removed. -/
def stripCR (l : Str) : Str :=
  match l.reverse with
  | '\r' :: rest => rest.reverse
  | _ => l

/-- Split a character list at every newline character; the result always has
one more piece than the number of newlines (so it is never empty). -/
def splitNl : Str → List Str
  | [] => [[]]
  | c :: cs =>
    if c = '\n' then [] :: splitNl cs
    else
      match splitNl cs with
      | [] => [[c]]
      | p :: ps => (c :: p) :: ps

/-- Part of the embedding of Rust `str::lines` applied to the pieces between
newlines: every piece except the last was terminated by `\n` and loses one
trailing `\r`; the final, unterminated piece keeps any trailing `\r` and is
dropped only when it is empty (the final line terminator is optional). -/
def rustLinesAux : List Str → List Str
  | [] => []
  | [l] => if l = [] then [] else [l]
  | l :: ls => stripCR l :: rustLinesAux ls

/-- Embedding of `content.lines().map(|s| s.to_string()).collect()` as used by
`nativeLoadCommandHistory`: lines are terminated by `\n` or `\r\n` and the
final terminator is optional, so the text splits at every `\n`, each
`\n`-terminated piece loses one trailing `\r`, and a final empty piece is
dropped while a final nonempty piece is kept verbatim (a trailing `\r` of
the last unterminated line is preserved). -/
def rustLines (s : Str) : List Str := rustLinesAux (splitNl s)

/-- Embedding of `session.history.join("\n")` as used by
`nativeSaveCommandHistory`. -/
def joinNl : List Str → Str
  | [] => []
  | [l] => l
  | l :: ls => l ++ '\n' :: joinNl ls

/-- Session-local (and process-wide) environment: a map from names to values,
embedded as an association list read through `envLookup`. -/
abbrev Env := List (Str × Str)

/-- Embedding of `HashMap::get`: the first binding of the key, if any. -/
def envLookup (e : Env) (k : Str) : Option Str :=
  (e.find? (fun p => p.1 == k)).map (·.2)

/-- Embedding of `HashMap::insert`: the new binding shadows any old one. -/
def envInsert (k v : Str) (e : Env) : Env := (k, v) :: e

/-- Oracle for the filesystem checks `Path::exists` and `Path::is_dir`. -/
structure Fs where
  pathExists : Str → Bool
  isDir : Str → Bool

/-- Embedding of the `TerminalProcess` struct: the `Child` handle is abstracted
to an opaque process identifier, and the three stdio handles to presence
flags (`Some(_)` or `None` in the source). -/
structure TerminalProcess where
  pid : Nat
  stdinPresent : Bool
  stdoutReaderPresent : Bool
  stderrReaderPresent : Bool
  command : Str
  start_time : Nat
deriving DecidableEq

/-- Embedding of the `TerminalSession` struct. -/
structure TerminalSession where
  id : Str
  working_directory : Str
  environment : Env
  current_process : Option TerminalProcess
  history : List Str
  created_at : Nat
  last_activity : Nat
deriving DecidableEq

instance : Inhabited TerminalSession :=
  ⟨{ id := [], working_directory := [], environment := [], current_process := none
     history := [], created_at := 0, last_activity := 0 }⟩

/-- Embedding of the `CommandOutput` struct returned by `execute_command`. -/
structure CommandOutput where
  success : Bool
  output : List Str
  error_output : List Str
  exit_code : Int
  execution_time_ms : Nat
  command : Str
  working_directory : Str
  timestamp : Nat
deriving DecidableEq

/-- The registry: the `SESSIONS` map from session id to session. -/
abbrev Registry := List (Str × TerminalSession)

/-- Embedding of `HashMap::get` on the registry. -/
def regLookup (l : Registry) (sid : Str) : Option TerminalSession :=
  (l.find? (fun p => p.1 == sid)).map (·.2)

/-- Embedding of `HashMap::remove` on the registry. -/
def regErase (sid : Str) (l : Registry) : Registry :=
  l.filter (fun p => !(p.1 == sid))

/-- Embedding of in-place mutation through `HashMap::get_mut`: rewrite the
entry holding the given key. -/
def regUpdate (l : Registry) (sid : Str) (f : TerminalSession → TerminalSession) :
    Registry :=
  l.map (fun p => if p.1 == sid then (p.1, f p.2) else p)

/-- The whole mutable state: the process-wide environment (`env::vars` /
`env::set_var`) together with the `SESSIONS` registry. -/
structure GState where
  procEnv : Env
  sessions : Registry
deriving DecidableEq

/-- Environment seeded by `nativeCreateSession`: a copy of the process-wide
environment, overwritten with the six synthesized defaults (in source order
`TERM`, `LANG`, `HOME`, `PS1`, `HISTSIZE`, `HISTFILESIZE`, with `HOME` set to
the initial working directory). -/
def seededEnvironment (procEnv : Env) (workingDir : Str) : Env :=
  envInsert (str "HISTFILESIZE") (str "2000")
    (envInsert (str "HISTSIZE") (str "1000")
      (envInsert (str "PS1") (str "\\[\\e[32m\\]\\u@\\h:\\[\\e[34m\\]\\w\\[\\e[0m\\]\\$ ")
        (envInsert (str "HOME") workingDir
          (envInsert (str "LANG") (str "en_US.UTF-8")
            (envInsert (str "TERM") (str "xterm-256color") procEnv)))))

/-- Embedding of `nativeCreateSession`: insert a fresh session with the seeded
environment, no process, empty history, and both timestamps set to now. -/
def createSession (st : GState) (workingDir : Str) (sid : Str) (now : Nat) : GState :=
  { st with
    sessions :=
      (sid,
        { id := sid
          working_directory := workingDir
          environment := seededEnvironment st.procEnv workingDir
          current_process := none
          history := []
          created_at := now
          last_activity := now }) :: st.sessions }

/-- Embedding of `nativeCloseSession`: if the session exists, take and kill its
process (the killed process is returned for inspection; kill errors are
ignored in the source) and remove the session, reporting `true`; otherwise
report `false` and leave the state unchanged. -/
def closeSession (st : GState) (sid : Str) : Bool × Option TerminalProcess × GState :=
  match regLookup st.sessions sid with
  | some s => (true, s.current_process, { st with sessions := regErase sid st.sessions })
  | none => (false, none, st)

/-- Embedding of `nativeGetWorkingDirectory`: the session's working directory,
or the default root `/` when the id is unknown. -/
def getWorkingDirectory (st : GState) (sid : Str) : Str :=
  match regLookup st.sessions sid with
  | some s => s.working_directory
  | none => str "/"

/-- Embedding of `nativeSetEnvironmentVariable`: set the process-wide variable
and insert the binding into every existing session's environment copy. -/
def setEnvironmentVariable (st : GState) (name value : Str) : GState :=
  { procEnv := envInsert name value st.procEnv
    sessions :=
      st.sessions.map (fun p =>
        (p.1, { p.2 with environment := envInsert name value p.2.environment })) }

/-- Directory-resolution logic of `nativeChangeDirectory`, translated branch by
branch from the source: absolute paths are kept; the exact strings `~` and
`$HOME` become the session's `HOME` entry (or `/` when unset); a `~/` or
`$HOME/` prefix joins the remainder onto the `HOME` entry, but collapses to
just `/` when `HOME` is unset; anything else is joined onto the current
working directory. -/
def resolveDirectory (environment : Env) (cwd : Str) (directory : Str) : Str :=
  if strStartsWith (str "/") directory then directory
  else if directory = str "~" ∨ directory = str "$HOME" then
    match envLookup environment (str "HOME") with
    | some home => home
    | none => str "/"
  else if strStartsWith (str "~/") directory ∨ strStartsWith (str "$HOME/") directory then
    match envLookup environment (str "HOME") with
    | some home =>
      pathJoin home
        (if strStartsWith (str "~/") directory then directory.drop 2 else directory.drop 6)
    | none => str "/"
  else pathJoin cwd directory

/-- Embedding of `nativeChangeDirectory`: resolve the target; if the resolved
path exists and is a directory, set it as the session's working directory,
update last activity, and report `true`; otherwise report `false` with no
mutation. -/
def changeDirectory (fs : Fs) (now : Nat) (st : GState) (sid directory : Str) :
    Bool × GState :=
  match regLookup st.sessions sid with
  | some s =>
    let newDir := resolveDirectory s.environment s.working_directory directory
    if fs.pathExists newDir && fs.isDir newDir then
      (true,
        { st with
          sessions :=
            regUpdate st.sessions sid (fun s0 =>
              { s0 with working_directory := newDir, last_activity := now }) })
    else (false, st)
  | none => (false, st)

/-- Embedding of `nativeStopCommand`: if the session owns a process, take and
kill it (the killed process is returned for inspection), update last
activity, and report `true`; otherwise report `false`. -/
def stopCommand (st : GState) (sid : Str) (now : Nat) :
    Bool × Option TerminalProcess × GState :=
  match regLookup st.sessions sid with
  | some s =>
    match s.current_process with
    | some p =>
      (true, some p,
        { st with
          sessions :=
            regUpdate st.sessions sid (fun s0 =>
              { s0 with current_process := none, last_activity := now }) })
    | none => (false, none, st)
  | none => (false, none, st)

/-- Structured result of `nativeStartInteractiveShell`. -/
structure ShellStartResult where
  success : Bool
  message : String
  shell_path : Option Str
deriving DecidableEq

/-- Embedding of `nativeStartInteractiveShell`.  The spawn outcome is an
oracle: `some pid` for a successful `Command::spawn` (the child with piped
stdin/stdout/stderr), `none` for a spawn error carrying `spawnErr`.  A session
already owning a process is rejected untouched; an unknown session id is
rejected untouched. -/
def startInteractiveShell (st : GState) (sid : Str) (now : Nat)
    (spawnResult : Option Nat) (spawnErr : String) (shellPath : Str) :
    ShellStartResult × GState :=
  match regLookup st.sessions sid with
  | some s =>
    if s.current_process.isSome then
      ({ success := false
         message := "A process is already running in this session"
         shell_path := none }, st)
    else
      match spawnResult with
      | some pid =>
        ({ success := true, message := "Interactive shell started"
           shell_path := some shellPath },
          { st with
            sessions :=
              regUpdate st.sessions sid (fun s0 =>
                { s0 with
                  current_process := some
                    { pid := pid
                      stdinPresent := true
                      stdoutReaderPresent := true
                      stderrReaderPresent := true
                      command := str "interactive shell"
                      start_time := now }
                  last_activity := now }) })
      | none =>
        ({ success := false, message := "Failed to start shell: " ++ spawnErr
           shell_path := none }, st)
  | none => ({ success := false, message := "Session not found", shell_path := none }, st)

/-- Structured result of `nativeSendInput`. -/
structure SendInputResult where
  success : Bool
  message : String
deriving DecidableEq

/-- Embedding of `nativeSendInput`.  The `writeOk` oracle is the outcome of
`writeln!(stdin, "{}", input)`: on success the input line is appended to the
history and last activity is updated; on a write error, an absent stdin
handle, an absent process, or an unknown session, a descriptive failure is
returned and the state is left unchanged. -/
def sendInput (st : GState) (sid input : Str) (now : Nat)
    (writeOk : Bool) (writeErr : String) : SendInputResult × GState :=
  match regLookup st.sessions sid with
  | some s =>
    match s.current_process with
    | some p =>
      if p.stdinPresent then
        if writeOk then
          ({ success := true, message := "Input sent to shell" },
            { st with
              sessions :=
                regUpdate st.sessions sid (fun s0 =>
                  { s0 with history := s0.history ++ [input], last_activity := now }) })
        else
          ({ success := false, message := "Failed to send input to shell: " ++ writeErr }, st)
      else ({ success := false, message := "Shell stdin not available" }, st)
    | none =>
      ({ success := false, message := "No interactive shell running in this session" }, st)
  | none => ({ success := false, message := "Session not found" }, st)

/-- State effect of `nativeReadOutput`: when the session exists and owns a
process, the output streams are drained (their contents are I/O, not state)
and last activity is updated; otherwise nothing changes. -/
def readOutputTouch (st : GState) (sid : Str) (now : Nat) : GState :=
  match regLookup st.sessions sid with
  | some s =>
    if s.current_process.isSome then
      { st with
        sessions := regUpdate st.sessions sid (fun s0 => { s0 with last_activity := now }) }
    else st
  | none => st

/-- Structured result of `nativeCleanupInactiveSessions`. -/
structure CleanupResult where
  removed_sessions : List Str
  remaining_sessions : Nat
  killed : List TerminalProcess
deriving DecidableEq

/-- Modulus of the `u64` arithmetic used for timestamps (the value 2 ^ 64). -/
def u64Mod : Nat := 18446744073709551616

/-- Wrapping `u64` subtraction (release-mode Rust semantics of
`current_time - session.last_activity`). -/
def u64Sub (a b : Nat) : Nat := (a % u64Mod + u64Mod - b % u64Mod) % u64Mod

/-- Wrapping `u64` multiplication (release-mode Rust semantics of
`max_idle_time_seconds * 1000`). -/
def u64Mul (a b : Nat) : Nat := a * b % u64Mod

/-- Embedding of `nativeCleanupInactiveSessions`: collect the ids of all
sessions whose idle time `now - last_activity` (u64 milliseconds) strictly
exceeds `maxIdleSeconds * 1000`, kill the process of each collected session,
remove them all, and report the removed ids and the number left. -/
def cleanupInactiveSessions (st : GState) (now : Nat) (maxIdleSeconds : Nat) :
    CleanupResult × GState :=
  let maxIdleMillis := u64Mul maxIdleSeconds 1000
  let toRemove :=
    (st.sessions.filter
      (fun p => maxIdleMillis < u64Sub now p.2.last_activity)).map (·.1)
  let killed :=
    (st.sessions.filter
      (fun p => maxIdleMillis < u64Sub now p.2.last_activity)).filterMap
      (·.2.current_process)
  let sessions' := toRemove.foldl (fun r id => regErase id r) st.sessions
  ({ removed_sessions := toRemove, remaining_sessions := sessions'.length, killed := killed },
    { st with sessions := sessions' })

/-- Structured result of `nativeSaveCommandHistory`: the reported boolean and
the content handed to `fs::write`, when a write was attempted at all. -/
structure SaveHistoryResult where
  ok : Bool
  written : Option Str
deriving DecidableEq

/-- Embedding of `nativeSaveCommandHistory`.  When the session exists, the
history joined with newlines is written (the `writeOk` oracle is the
`fs::write` outcome); when it does not, `false` is reported with no file I/O.
The registry is only read, never mutated. -/
def saveCommandHistory (st : GState) (sid : Str) (writeOk : Bool) : SaveHistoryResult :=
  match regLookup st.sessions sid with
  | some s => { ok := writeOk, written := some (joinNl s.history) }
  | none => { ok := false, written := none }

/-- Structured result of `nativeLoadCommandHistory`: the reported boolean and
whether a file read was attempted at all. -/
structure LoadHistoryResult where
  ok : Bool
  readAttempted : Bool
deriving DecidableEq

/-- Embedding of `nativeLoadCommandHistory`.  When the session exists, the
file is read (the `fileContent` oracle is the `fs::read_to_string` outcome,
`none` meaning an error); on success the session's history is replaced by the
file's lines; on a read error, or an unknown session id (where no read is
attempted), `false` is reported with no mutation. -/
def loadCommandHistory (st : GState) (sid : Str) (fileContent : Option Str) :
    LoadHistoryResult × GState :=
  match regLookup st.sessions sid with
  | some _ =>
    match fileContent with
    | some content =>
      ({ ok := true, readAttempted := true },
        { st with
          sessions :=
            regUpdate st.sessions sid (fun s0 => { s0 with history := rustLines content }) })
    | none => ({ ok := false, readAttempted := true }, st)
  | none => ({ ok := false, readAttempted := false }, st)

/-- Outcome of the dispatch phase of the helper `execute_command`: either a
built-in produced a `CommandOutput` with no process spawned, or the command
text is handed to a spawned `sh -c` child. -/
inductive ExecStep where
  | builtin (out : CommandOutput)
  | shell (command : Str)
deriving DecidableEq

/-- The `cd` error line `cd: <dir>: No such file or directory` produced by
`execute_command`. -/
def cdErrorLine (dir : Str) : Str :=
  str "cd: " ++ dir ++ str ": No such file or directory"

/-- Embedding of the dispatch logic of the helper `execute_command`: a trimmed
`clear` succeeds immediately; a command starting with `cd ` resolves its
trimmed remainder against the given working directory (absolute arguments are
kept) and succeeds or fails without spawning; everything else is run through
`sh -c`. -/
def executeCommandStep (fs : Fs) (now : Nat) (command workingDir : Str) : ExecStep :=
  if trim command = str "clear" then
    .builtin
      { success := true, output := [], error_output := [], exit_code := 0
        execution_time_ms := 0, command := command, working_directory := workingDir
        timestamp := now }
  else if strStartsWith (str "cd ") command then
    let dir := trim (command.drop 3)
    let path := if strStartsWith (str "/") dir then dir else pathJoin workingDir dir
    if fs.pathExists path && fs.isDir path then
      .builtin
        { success := true, output := [], error_output := [], exit_code := 0
          execution_time_ms := 0, command := command, working_directory := path
          timestamp := now }
    else
      .builtin
        { success := false, output := [], error_output := [cdErrorLine dir], exit_code := 1
          execution_time_ms := 0, command := command, working_directory := workingDir
          timestamp := now }
  else .shell command

/-- States of the registry reachable from process start (ambient environment
`env0`, empty session map) through the module's state-mutating operations,
with all oracles (time, filesystem, spawn and I/O outcomes) arbitrary. -/
inductive Reachable (env0 : Env) : GState → Prop where
  | init : Reachable env0 { procEnv := env0, sessions := [] }
  | create (st : GState) (wd sid : Str) (now : Nat) :
      Reachable env0 st → Reachable env0 (createSession st wd sid now)
  | close (st : GState) (sid : Str) :
      Reachable env0 st → Reachable env0 (closeSession st sid).2.2
  | chdir (fs : Fs) (now : Nat) (st : GState) (sid directory : Str) :
      Reachable env0 st → Reachable env0 (changeDirectory fs now st sid directory).2
  | setenv (st : GState) (name value : Str) :
      Reachable env0 st → Reachable env0 (setEnvironmentVariable st name value)
  | startsh (st : GState) (sid : Str) (now : Nat) (spawnResult : Option Nat)
      (spawnErr : String) (shellPath : Str) :
      Reachable env0 st →
      Reachable env0 (startInteractiveShell st sid now spawnResult spawnErr shellPath).2
  | send (st : GState) (sid input : Str) (now : Nat) (writeOk : Bool) (writeErr : String) :
      Reachable env0 st → Reachable env0 (sendInput st sid input now writeOk writeErr).2
  | readout (st : GState) (sid : Str) (now : Nat) :
      Reachable env0 st → Reachable env0 (readOutputTouch st sid now)
  | stop (st : GState) (sid : Str) (now : Nat) :
      Reachable env0 st → Reachable env0 (stopCommand st sid now).2.2
  | cleanup (st : GState) (now maxIdleSeconds : Nat) :
      Reachable env0 st → Reachable env0 (cleanupInactiveSessions st now maxIdleSeconds).2
  | load (st : GState) (sid : Str) (fileContent : Option Str) :
      Reachable env0 st → Reachable env0 (loadCommandHistory st sid fileContent).2

/-- Invariant: every session in the registry has a `HOME` entry in its
environment (established by `createSession`, never removed afterwards). -/
def homeSet (l : Registry) : Prop :=
  ∀ p ∈ l, (envLookup p.2.environment (str "HOME")).isSome = true

theorem envLookup_envInsert (k v : Str) (e : Env) (k' : Str) :
    envLookup (envInsert k v e) k' = if k = k' then some v else envLookup e k' := by
  by_cases h : k = k'
  · simp [envLookup, envInsert, List.find?_cons_of_pos, h]
  · have hb : (k == k') = false := by simpa using h
    simp [envLookup, envInsert, h, List.find?_cons_of_neg, hb]

theorem envLookup_seeded_home (procEnv : Env) (workingDir : Str) :
    envLookup (seededEnvironment procEnv workingDir) (str "HOME") = some workingDir := rfl

theorem homeSet_filter (l : Registry) (pred : Str × TerminalSession → Bool)
    (h : homeSet l) : homeSet (l.filter pred) :=
  fun p hp => h p (List.mem_filter.mp hp).1

theorem homeSet_regErase (l : Registry) (sid : Str) (h : homeSet l) :
    homeSet (regErase sid l) := homeSet_filter l _ h

theorem homeSet_regUpdate (l : Registry) (sid : Str)
    (f : TerminalSession → TerminalSession) (h : homeSet l)
    (p : Str × TerminalSession) (hp : p ∈ regUpdate l sid f)
    (hf : ∀ s, (f s).environment = s.environment) :
    (envLookup p.2.environment (str "HOME")).isSome = true := by
  rcases List.mem_map.mp hp with ⟨q, hq, hpq⟩
  by_cases hk : (q.1 == sid) = true
  · subst hpq
    simpa [hk, hf] using h q hq
  · subst hpq
    simp only [hk] at *
    simpa using h q hq

theorem homeSet_foldl_regErase (ids : List Str) (l : Registry) (h : homeSet l) :
    homeSet (ids.foldl (fun r id => regErase id r) l) := by
  induction ids generalizing l with
  | nil => exact h
  | cons id ids ih => exact ih (regErase id l) (homeSet_regErase l id h)

/-- Every reachable registry state satisfies the `HOME` invariant: every
session the program can ever hold in its map carries a `HOME` binding. -/
theorem homeSet_of_reachable (env0 : Env) (st : GState) (h : Reachable env0 st) :
    homeSet st.sessions := by
  induction h with
  | init => intro p hp; simp at hp
  | create st wd sid now _ ih =>
    intro p hp
    rcases List.mem_cons.mp hp with h1 | h2
    · subst h1
      simp [envLookup_seeded_home]
    · exact ih p h2
  | close st sid _ ih =>
    intro p hp
    cases hq : regLookup st.sessions sid with
    | some s =>
      simp only [closeSession, hq] at hp
      exact ih p (List.mem_filter.mp hp).1
    | none =>
      simp only [closeSession, hq] at hp
      exact ih p hp
  | chdir fs now st sid directory _ ih =>
    intro p hp
    cases hq : regLookup st.sessions sid with
    | some s =>
      simp only [changeDirectory, hq] at hp
      split at hp
      · dsimp only at hp
        apply homeSet_regUpdate _ _ _ ih p hp
        intro s0
        rfl
      · exact ih p hp
    | none =>
      simp only [changeDirectory, hq] at hp
      exact ih p hp
  | setenv st name value _ ih =>
    intro p hp
    rcases List.mem_map.mp hp with ⟨q, hq, hpq⟩
    subst hpq
    simp only [envLookup_envInsert]
    split
    · simp
    · simpa using ih q hq
  | startsh st sid now spawnResult spawnErr shellPath _ ih =>
    intro p hp
    cases hq : regLookup st.sessions sid with
    | some s =>
      simp only [startInteractiveShell, hq] at hp
      split at hp
      · exact ih p hp
      · cases spawnResult with
        | some pid =>
          dsimp only at hp
          apply homeSet_regUpdate _ _ _ ih p hp
          intro s0
          rfl
        | none =>
          exact ih p hp
    | none =>
      simp only [startInteractiveShell, hq] at hp
      exact ih p hp
  | send st sid input now writeOk writeErr _ ih =>
    intro p hp
    cases hq : regLookup st.sessions sid with
    | some s =>
      simp only [sendInput, hq] at hp
      cases hc : s.current_process with
      | some pr =>
        simp only [hc] at hp
        split at hp
        · split at hp
          · dsimp only at hp
            apply homeSet_regUpdate _ _ _ ih p hp
            intro s0
            rfl
          · exact ih p hp
        · exact ih p hp
      | none =>
        simp only [hc] at hp
        exact ih p hp
    | none =>
      simp only [sendInput, hq] at hp
      exact ih p hp
  | readout st sid now _ ih =>
    intro p hp
    cases hq : regLookup st.sessions sid with
    | some s =>
      simp only [readOutputTouch, hq] at hp
      split at hp
      · dsimp only at hp
        apply homeSet_regUpdate _ _ _ ih p hp
        intro s0
        rfl
      · exact ih p hp
    | none =>
      simp only [readOutputTouch, hq] at hp
      exact ih p hp
  | stop st sid now _ ih =>
    intro p hp
    cases hq : regLookup st.sessions sid with
    | some s =>
      simp only [stopCommand, hq] at hp
      cases hc : s.current_process with
      | some pr =>
        simp only [hc] at hp
        apply homeSet_regUpdate _ _ _ ih p hp
        intro s0
        rfl
      | none =>
        simp only [hc] at hp
        exact ih p hp
    | none =>
      simp only [stopCommand, hq] at hp
      exact ih p hp
  | cleanup st now maxIdleSeconds _ ih =>
    intro p hp
    simp only [cleanupInactiveSessions] at hp
    exact homeSet_foldl_regErase _ _ ih p hp
  | load st sid fileContent _ ih =>
    intro p hp
    cases hq : regLookup st.sessions sid with
    | some s =>
      cases hf : fileContent with
      | some content =>
        simp only [loadCommandHistory, hq, hf] at hp
        apply homeSet_regUpdate _ _ _ ih p hp
        intro s0
        rfl
      | none =>
        simp only [loadCommandHistory, hq, hf] at hp
        exact ih p hp
    | none =>
      simp only [loadCommandHistory, hq] at hp
      exact ih p hp

theorem regLookup_cons (q : Str × TerminalSession) (t : Registry) (sid : Str) :
    regLookup (q :: t) sid = if q.1 = sid then some q.2 else regLookup t sid := by
  by_cases h : q.1 = sid
  · simp [regLookup, List.find?_cons_of_pos, h]
  · have hb : (q.1 == sid) = false := by simpa using h
    simp [regLookup, List.find?_cons_of_neg, hb, h]

theorem regLookup_regUpdate (l : Registry) (sid : Str)
    (f : TerminalSession → TerminalSession) (sid' : Str) :
    regLookup (regUpdate l sid f) sid' =
      if sid = sid' then (regLookup l sid).map f else regLookup l sid' := by
  induction l with
  | nil => by_cases h : sid = sid' <;> simp [regLookup, regUpdate, h]
  | cons p l ih =>
    have hstep :
        regUpdate (p :: l) sid f =
          (if p.1 == sid then (p.1, f p.2) else p) :: regUpdate l sid f := rfl
    rw [hstep]
    by_cases h1 : p.1 = sid
    · have hb1 : (p.1 == sid) = true := by simpa using h1
      simp only [hb1, if_true]
      rw [regLookup_cons]
      by_cases h2 : sid = sid'
      · subst h2
        simp [h1, regLookup_cons]
      · have h2' : ¬p.1 = sid' := fun h => h2 (h1.symm.trans h)
        simp [h2', h2, ih, regLookup_cons]
    · have hb1 : (p.1 == sid) = false := by simpa using h1
      simp only [hb1, Bool.false_eq_true, if_false]
      rw [regLookup_cons]
      by_cases h2 : p.1 = sid'
      · have hss : ¬sid = sid' := fun h => h1 (h2.trans h.symm)
        simp [h2, hss, regLookup_cons]
      · simp [h1, h2, ih, regLookup_cons]

theorem regLookup_regErase (l : Registry) (sid sid' : Str) :
    regLookup (regErase sid l) sid' =
      if sid = sid' then none else regLookup l sid' := by
  induction l with
  | nil => by_cases h : sid = sid' <;> simp [regLookup, regErase, h]
  | cons p l ih =>
    by_cases h1 : p.1 = sid
    · have hb1 : (p.1 == sid) = true := by simpa using h1
      have hstep : regErase sid (p :: l) = regErase sid l := by
        simp [regErase, hb1]
      rw [hstep, ih]
      by_cases h2 : sid = sid'
      · simp [h2]
      · have h2' : ¬p.1 = sid' := fun h => h2 (h1.symm.trans h)
        simp [h2, regLookup_cons, h2']
    · have hb1 : (p.1 == sid) = false := by simpa using h1
      have hstep : regErase sid (p :: l) = p :: regErase sid l := by
        simp [regErase, hb1]
      rw [hstep, regLookup_cons]
      by_cases h3 : p.1 = sid'
      · by_cases h2 : sid = sid'
        · exact absurd (h3.trans h2.symm) h1
        · simp [regLookup_cons, h3, h2]
      · simp [h3, ih, regLookup_cons]

/-- Modelled from the spec's words (§4.1 `change_directory`): an absolute path
is used as-is; the exact strings `~` or `$HOME` resolve to the session's
`HOME` entry, or root `/` if `HOME` is unset; a target beginning with `~/` or
`$HOME/` resolves the remainder under that same base; any other target
resolves relative to the current working directory. -/
def resolveTargetSpec (home : Option Str) (cwd target : Str) : Str :=
  if strStartsWith (str "/") target then target
  else if target = str "~" ∨ target = str "$HOME" then home.getD (str "/")
  else if strStartsWith (str "~/") target then
    pathJoin (home.getD (str "/")) (target.drop 2)
  else if strStartsWith (str "$HOME/") target then
    pathJoin (home.getD (str "/")) (target.drop 6)
  else pathJoin cwd target

/-- When the session's environment carries a `HOME` binding (which holds for
every reachable session), the code's directory resolution agrees with the
specification's description of it. -/
theorem resolveDirectory_eq_spec (environment : Env) (cwd target : Str) (home : Str)
    (hh : envLookup environment (str "HOME") = some home) :
    resolveDirectory environment cwd target =
      resolveTargetSpec (envLookup environment (str "HOME")) cwd target := by
  unfold resolveDirectory resolveTargetSpec
  rw [hh]
  by_cases hA : strStartsWith (str "/") target = true
  · simp [hA]
  · by_cases hB : target = str "~" ∨ target = str "$HOME"
    · simp [hA, hB]
    · by_cases hC : strStartsWith (str "~/") target = true
      · simp [hA, hB, hC]
      · by_cases hD : strStartsWith (str "$HOME/") target = true
        · simp [hA, hB, hC, hD]
        · simp [hA, hB, hC, hD]

theorem splitNl_ne_nil (s : Str) : splitNl s ≠ [] := by
  induction s with
  | nil => simp [splitNl]
  | cons c cs ih =>
    by_cases h : c = '\n'
    · simp [splitNl, h]
    · simp only [splitNl, h, if_false]
      cases hs : splitNl cs with
      | nil => simp
      | cons p ps => simp

theorem splitNl_of_no_newline (l : Str) (h : '\n' ∉ l) : splitNl l = [l] := by
  induction l with
  | nil => rfl
  | cons c cs ih =>
    have hc : ¬c = '\n' := fun he => h (by simp [he])
    have hcs : '\n' ∉ cs := fun hm => h (List.mem_cons_of_mem _ hm)
    simp [splitNl, hc, ih hcs]

theorem splitNl_append (l rest : Str) (h : '\n' ∉ l) :
    splitNl (l ++ '\n' :: rest) = l :: splitNl rest := by
  induction l with
  | nil => simp [splitNl]
  | cons c cs ih =>
    have hc : ¬c = '\n' := fun he => h (by simp [he])
    have hcs : '\n' ∉ cs := fun hm => h (List.mem_cons_of_mem _ hm)
    show splitNl (c :: (cs ++ '\n' :: rest)) = (c :: cs) :: splitNl rest
    simp only [splitNl, hc, if_false, ih hcs]

theorem rustLinesAux_cons (l : Str) (ls : List Str) (h : ls ≠ []) :
    rustLinesAux (l :: ls) = stripCR l :: rustLinesAux ls := by
  cases ls with
  | nil => exact absurd rfl h
  | cons a t => rfl

/-- Core of the history round-trip: joining lines with a newline and parsing
the result back through the Rust `lines` semantics reproduces the lines,
provided no line contains a newline, no line other than the last ends with a
carriage return (the last, being unterminated in the file, keeps one), and
the final line (if any) is nonempty. -/
theorem rustLines_joinNl (h : List Str) :
    (∀ l ∈ h, '\n' ∉ l) → (∀ l ∈ h.dropLast, stripCR l = l) →
    h.getLast? ≠ some [] →
    rustLines (joinNl h) = h := by
  induction h with
  | nil => intro _ _ _; rfl
  | cons l t ih =>
    intro hnl hcr hlast
    cases t with
    | nil =>
      have h1 := hnl l (by simp)
      have hlne : l ≠ [] := by
        intro he
        exact hlast (by simp [he])
      show rustLines (joinNl [l]) = [l]
      have hj : joinNl [l] = l := rfl
      rw [hj]
      simp [rustLines, splitNl_of_no_newline l h1, rustLinesAux, hlne]
    | cons l2 t2 =>
      have h1 := hnl l (by simp)
      have hcrl : stripCR l = l := by
        apply hcr
        rw [show (l :: l2 :: t2).dropLast = l :: (l2 :: t2).dropLast from rfl]
        exact List.mem_cons_self _ _
      have hnl2 : ∀ x ∈ l2 :: t2, '\n' ∉ x := fun x hx => hnl x (by simp [hx])
      have hcr2 : ∀ x ∈ (l2 :: t2).dropLast, stripCR x = x := by
        intro x hx
        apply hcr
        rw [show (l :: l2 :: t2).dropLast = l :: (l2 :: t2).dropLast from rfl]
        exact List.mem_cons_of_mem _ hx
      have hlast2 : (l2 :: t2).getLast? ≠ some [] := by
        simpa using hlast
      have hrec := ih hnl2 hcr2 hlast2
      have hj : joinNl (l :: l2 :: t2) = l ++ '\n' :: joinNl (l2 :: t2) := rfl
      simp only [rustLines, hj, splitNl_append _ _ h1,
        rustLinesAux_cons _ _ (splitNl_ne_nil _), hcrl]
      simp only [rustLines] at hrec
      rw [hrec]

theorem regLookup_eq_some_iff_mem (l : Registry)
    (hnd : (l.map Prod.fst).Nodup) (sid : Str) (s : TerminalSession) :
    regLookup l sid = some s ↔ (sid, s) ∈ l := by
  induction l with
  | nil => simp [regLookup]
  | cons p t ih =>
    have hmap : (p :: t).map Prod.fst = p.1 :: t.map Prod.fst := rfl
    rw [hmap] at hnd
    have hnotin : p.1 ∉ t.map Prod.fst := (List.nodup_cons.mp hnd).1
    have hnd2 : (t.map Prod.fst).Nodup := (List.nodup_cons.mp hnd).2
    rw [regLookup_cons, List.mem_cons]
    by_cases hp : p.1 = sid
    · rw [if_pos hp]
      constructor
      · intro he
        obtain rfl : p.2 = s := by injection he
        left
        rw [← hp]
      · rintro (he | hm)
        · rw [← he]
        · exfalso
          apply hnotin
          rw [hp]
          exact List.mem_map_of_mem Prod.fst hm
    · rw [if_neg hp, ih hnd2]
      constructor
      · exact fun hm => Or.inr hm
      · rintro (he | hm)
        · exfalso
          apply hp
          rw [← he]
        · exact hm

theorem foldl_regErase_eq_filter (ids : List Str) (l : Registry) :
    ids.foldl (fun r id => regErase id r) l
      = l.filter (fun p => !(decide (p.1 ∈ ids))) := by
  induction ids generalizing l with
  | nil => simp
  | cons id ids ih =>
    rw [List.foldl_cons, ih, regErase, List.filter_filter]
    apply List.filter_congr
    intro p _
    by_cases h1 : p.1 = id <;> by_cases h2 : p.1 ∈ ids <;> simp [h1, h2]

theorem mem_removed_iff (l : Registry) (hnd : (l.map Prod.fst).Nodup)
    (cond : TerminalSession → Bool) (sid : Str) :
    sid ∈ (l.filter (fun p => cond p.2)).map Prod.fst ↔
      ∃ s, regLookup l sid = some s ∧ cond s = true := by
  rw [List.mem_map]
  constructor
  · rintro ⟨q, hq, rfl⟩
    rcases List.mem_filter.mp hq with ⟨hql, hqc⟩
    exact ⟨q.2, (regLookup_eq_some_iff_mem l hnd _ _).mpr hql, hqc⟩
  · rintro ⟨s, hs, hc⟩
    exact ⟨(sid, s),
      List.mem_filter.mpr ⟨(regLookup_eq_some_iff_mem l hnd _ _).mp hs, hc⟩, rfl⟩

theorem trimRight_cons_d (l : Str) : ∃ r, trimRight ('d' :: l) = 'd' :: r := by
  cases h : trimRight l with
  | nil => exact ⟨[], by simp [trimRight, h]⟩
  | cons a t => exact ⟨a :: t, by simp [trimRight, h]⟩

theorem trimRight_cons_of_ne_nil (c : Char) (l : Str) (hne : trimRight l ≠ []) :
    trimRight (c :: l) = c :: trimRight l := by
  cases hr : trimRight l with
  | nil => exact absurd hr hne
  | cons a t => simp [trimRight, hr]

theorem trim_of_cd (command : Str) (h : strStartsWith (str "cd ") command = true) :
    ∃ r, trim command = 'c' :: 'd' :: r := by
  obtain ⟨rest, hrest⟩ : ∃ rest, command = 'c' :: 'd' :: ' ' :: rest := by
    have hp : str "cd " <+: command := List.isPrefixOf_iff_prefix.mp h
    obtain ⟨t, ht⟩ := hp
    refine ⟨t, ?_⟩
    rw [← ht]
    rfl
  subst hrest
  have h1 : trimLeft ('c' :: 'd' :: ' ' :: rest) = 'c' :: 'd' :: ' ' :: rest := rfl
  obtain ⟨r2, hr2⟩ := trimRight_cons_d (' ' :: rest)
  have hne1 : trimRight ('d' :: ' ' :: rest) ≠ [] := by
    rw [hr2]
    simp
  refine ⟨r2, ?_⟩
  rw [trim, h1, trimRight_cons_of_ne_nil 'c' _ hne1, hr2]

theorem trim_cd_ne_clear (command : Str) (h : strStartsWith (str "cd ") command = true) :
    ¬trim command = str "clear" := by
  obtain ⟨r, hr⟩ := trim_of_cd command h
  rw [hr]
  intro he
  injection he with h1 h2
  injection h2 with h3 h4
  exact absurd h3 (by decide)

/-- Fold a sequence of `send_input` calls (each with its own write outcome)
over the state. -/
def runSendInputs (st : GState) (sid : Str) (events : List (Str × Bool))
    (now : Nat) (writeErr : String) : GState :=
  events.foldl (fun s e => (sendInput s sid e.1 now e.2 writeErr).2) st

theorem runSendInputs_history (events : List (Str × Bool)) (st : GState)
    (sid : Str) (now : Nat) (writeErr : String) (s : TerminalSession)
    (pr : TerminalProcess) (hs : regLookup st.sessions sid = some s)
    (hpr : s.current_process = some pr) (hstdin : pr.stdinPresent = true) :
    ∃ s', regLookup (runSendInputs st sid events now writeErr).sessions sid = some s'
      ∧ s'.history = s.history ++ (events.filter (fun e => e.2)).map (fun e => e.1)
      ∧ s'.current_process = some pr := by
  induction events generalizing st s with
  | nil => exact ⟨s, hs, by simp, hpr⟩
  | cons e es ih =>
    obtain ⟨line, ok⟩ := e
    cases ok with
    | true =>
      have hlook : regLookup (sendInput st sid line now true writeErr).2.sessions sid
          = some { s with history := s.history ++ [line], last_activity := now } := by
        simp [sendInput, hs, hpr, hstdin, regLookup_regUpdate]
      obtain ⟨s', h1, h2, h3⟩ := ih _ _ hlook (by simpa using hpr)
      refine ⟨s', ?_, ?_, h3⟩
      · have hrun : runSendInputs st sid ((line, true) :: es) now writeErr
            = runSendInputs (sendInput st sid line now true writeErr).2 sid es now writeErr := rfl
        rw [hrun]
        exact h1
      · rw [h2]
        simp
    | false =>
      have hstep : (sendInput st sid line now false writeErr).2 = st := by
        simp [sendInput, hs, hpr, hstdin]
      obtain ⟨s', h1, h2, h3⟩ := ih st s hs hpr
      refine ⟨s', ?_, ?_, h3⟩
      · have hrun : runSendInputs st sid ((line, false) :: es) now writeErr
            = runSendInputs (sendInput st sid line now false writeErr).2 sid es now writeErr := rfl
        rw [hrun, hstep]
        exact h1
      · rw [h2]
        simp

end Terminal

namespace Terminal

theorem u64Sub_eq_sub (a b : Nat) (hb : b ≤ a) (ha : a < u64Mod) :
    u64Sub a b = a - b := by
  unfold u64Sub u64Mod at *
  omega

theorem u64Mul_eq_mul (a b : Nat) (h : a * b < u64Mod) : u64Mul a b = a * b := by
  unfold u64Mul u64Mod at *
  omega

/-- For in-range timestamps behind a monotonic clock, the cleanup filter
condition is the plain idle-time comparison. -/
theorem cleanup_cond_eq (now t : Nat) (hnow : now < u64Mod) (ht : t * 1000 < u64Mod)
    (p : Str × TerminalSession) (hla : p.2.last_activity ≤ now) :
    (decide (u64Mul t 1000 < u64Sub now p.2.last_activity) : Bool)
      = decide (t * 1000 < now - p.2.last_activity) := by
  rw [u64Mul_eq_mul _ _ ht, u64Sub_eq_sub _ _ hla hnow]

end Terminal

namespace Terminal

/-- C1 counterexample: on the reachable registry holding one session created at
time 1000, `cleanup_inactive_sessions(0)` invoked at that same time removes
nothing and reports one remaining session, because the code evicts only
sessions whose idle time STRICTLY exceeds the threshold, and this session's
idle time is exactly 0; the claim's "removes every currently tracked session
and reports remaining == 0" fails here. -/
theorem C1_counterexample :
    (cleanupInactiveSessions (createSession { procEnv := [], sessions := [] }
        (str "/tmp") (str "s1") 1000) 1000 0).1.removed_sessions = []
    ∧ (cleanupInactiveSessions (createSession { procEnv := [], sessions := [] }
        (str "/tmp") (str "s1") 1000) 1000 0).1.remaining_sessions = 1 := by
  exact ⟨by decide, by decide⟩

/-- C1 (amended): for every registry state with distinct session ids and
in-range timestamps no later than `now`, `cleanup_inactive_sessions(t)` kills
and removes exactly the sessions whose idle time `now - last_activity`
strictly exceeds `t * 1000` milliseconds: the evicted list names precisely
those sessions, the surviving map holds precisely the others, the reported
remaining count is the number of survivors, and the killed processes are
precisely those owned by evicted sessions.  For `t = 0` this removes the
sessions with nonzero idle time only: a session whose `last_activity` equals
the current time survives. -/
theorem C1_cleanup_exact (st : GState) (now t : Nat)
    (hnd : (st.sessions.map Prod.fst).Nodup)
    (hnow : now < u64Mod) (ht : t * 1000 < u64Mod)
    (htime : ∀ p ∈ st.sessions, p.2.last_activity ≤ now) :
    (∀ sid, sid ∈ (cleanupInactiveSessions st now t).1.removed_sessions ↔
      ∃ s, regLookup st.sessions sid = some s ∧ t * 1000 < now - s.last_activity)
    ∧ (∀ sid s, regLookup (cleanupInactiveSessions st now t).2.sessions sid = some s ↔
        (regLookup st.sessions sid = some s ∧ now - s.last_activity ≤ t * 1000))
    ∧ (cleanupInactiveSessions st now t).1.remaining_sessions
        = (st.sessions.filter
            (fun p => decide (now - p.2.last_activity ≤ t * 1000))).length
    ∧ (∀ pr, pr ∈ (cleanupInactiveSessions st now t).1.killed ↔
        ∃ sid s, regLookup st.sessions sid = some s ∧ t * 1000 < now - s.last_activity
          ∧ s.current_process = some pr) := by
  have hcong : st.sessions.filter
        (fun p => decide (u64Mul t 1000 < u64Sub now p.2.last_activity))
      = st.sessions.filter
        (fun p => decide (t * 1000 < now - p.2.last_activity)) :=
    List.filter_congr (fun p hp => cleanup_cond_eq now t hnow ht p (htime p hp))
  have hremoved : (cleanupInactiveSessions st now t).1.removed_sessions
      = (st.sessions.filter
          (fun p => decide (t * 1000 < now - p.2.last_activity))).map Prod.fst := by
    show (st.sessions.filter
        (fun p => decide (u64Mul t 1000 < u64Sub now p.2.last_activity))).map (·.1) = _
    rw [hcong]
  have hrem : ∀ sid, sid ∈ (cleanupInactiveSessions st now t).1.removed_sessions ↔
      ∃ s, regLookup st.sessions sid = some s ∧ t * 1000 < now - s.last_activity := by
    intro sid
    rw [hremoved]
    have hbase := mem_removed_iff st.sessions hnd
      (fun s => decide (t * 1000 < now - s.last_activity)) sid
    constructor
    · intro h
      rcases hbase.mp h with ⟨s2, hs2, hc⟩
      exact ⟨s2, hs2, of_decide_eq_true hc⟩
    · rintro ⟨s2, hs2, hc⟩
      exact hbase.mpr ⟨s2, hs2, decide_eq_true hc⟩
  have hafter : (cleanupInactiveSessions st now t).2.sessions
      = st.sessions.filter (fun p =>
          !(decide (p.1 ∈ (cleanupInactiveSessions st now t).1.removed_sessions))) :=
    foldl_regErase_eq_filter _ _
  have hpt : ∀ p ∈ st.sessions,
      (!(decide (p.1 ∈ (cleanupInactiveSessions st now t).1.removed_sessions)) : Bool)
        = decide (now - p.2.last_activity ≤ t * 1000) := by
    intro p hp
    have hlk : regLookup st.sessions p.1 = some p.2 :=
      (regLookup_eq_some_iff_mem _ hnd _ _).mpr hp
    by_cases hgt : t * 1000 < now - p.2.last_activity
    · have hin : p.1 ∈ (cleanupInactiveSessions st now t).1.removed_sessions :=
        (hrem p.1).mpr ⟨p.2, hlk, hgt⟩
      simp [hin, not_le.mpr hgt]
    · have hout : p.1 ∉ (cleanupInactiveSessions st now t).1.removed_sessions := by
        intro hmem
        rcases (hrem p.1).mp hmem with ⟨s2, hs2, hgt2⟩
        rw [hlk] at hs2
        injection hs2 with he
        exact hgt (he ▸ hgt2)
      simp [hout, not_lt.mp hgt]
  have hafter2 : (cleanupInactiveSessions st now t).2.sessions
      = st.sessions.filter (fun p => decide (now - p.2.last_activity ≤ t * 1000)) := by
    rw [hafter]
    exact List.filter_congr hpt
  have hnd2 : (((cleanupInactiveSessions st now t).2.sessions).map Prod.fst).Nodup := by
    rw [hafter2]
    exact List.Nodup.sublist ((List.filter_sublist _).map Prod.fst) hnd
  refine ⟨hrem, ?_, ?_, ?_⟩
  · intro sid s
    rw [regLookup_eq_some_iff_mem _ hnd2, hafter2, List.mem_filter,
      ← regLookup_eq_some_iff_mem _ hnd]
    constructor
    · rintro ⟨h1, h2⟩
      exact ⟨h1, by simpa using h2⟩
    · rintro ⟨h1, h2⟩
      exact ⟨h1, by simpa using h2⟩
  · show ((cleanupInactiveSessions st now t).2.sessions).length = _
    rw [hafter2]
  · intro pr
    have hkill : (cleanupInactiveSessions st now t).1.killed
        = (st.sessions.filter
            (fun p => decide (t * 1000 < now - p.2.last_activity))).filterMap
          (·.2.current_process) := by
      show (st.sessions.filter
          (fun p => decide (u64Mul t 1000 < u64Sub now p.2.last_activity))).filterMap
        (·.2.current_process) = _
      rw [hcong]
    rw [hkill, List.mem_filterMap]
    constructor
    · rintro ⟨q, hq, hqp⟩
      rcases List.mem_filter.mp hq with ⟨hql, hqc⟩
      exact ⟨q.1, q.2, (regLookup_eq_some_iff_mem _ hnd _ _).mpr hql,
        by simpa using hqc, hqp⟩
    · rintro ⟨sid, s2, hs2, hgt2, hp2⟩
      exact ⟨(sid, s2), List.mem_filter.mpr
        ⟨(regLookup_eq_some_iff_mem _ hnd _ _).mp hs2, by simpa using hgt2⟩, hp2⟩

/-- Witness for the amended C1 on a concrete two-session registry at time
5000 with threshold 1 second: the session idle for 2000 ms is evicted, the
session idle for 500 ms survives. -/
theorem C1_cleanup_exact_witness :
    ((createSession (createSession { procEnv := [], sessions := [] }
        (str "/a") (str "s1") 3000) (str "/b") (str "s2") 4500).sessions.map
          Prod.fst).Nodup
    ∧ ∃ s, regLookup (createSession (createSession { procEnv := [], sessions := [] }
          (str "/a") (str "s1") 3000) (str "/b") (str "s2") 4500).sessions
          (str "s1") = some s
        ∧ 1 * 1000 < 5000 - s.last_activity := by
  have hbase := C1_cleanup_exact (createSession (createSession
      { procEnv := [], sessions := [] } (str "/a") (str "s1") 3000)
      (str "/b") (str "s2") 4500) 5000 1 (by decide) (by decide) (by decide)
      (by decide)
  exact ⟨by decide, (hbase.1 (str "s1")).mp (by decide)⟩

end Terminal

namespace Terminal

/-- C8: `close_session(id)` returns true exactly when a session with that id
exists; when it does, the owned process (if any) is the one killed and the
session is removed, so a subsequent `get_working_directory(id)` returns the
default root `/`; on an unknown id it returns false and the registry is
unchanged. -/
theorem C8_close_session (st : GState) (sid : Str) :
    ((closeSession st sid).1 = true ↔ (regLookup st.sessions sid).isSome = true)
    ∧ (∀ s, regLookup st.sessions sid = some s →
        closeSession st sid =
          (true, s.current_process, { st with sessions := regErase sid st.sessions })
        ∧ getWorkingDirectory (closeSession st sid).2.2 sid = str "/")
    ∧ (regLookup st.sessions sid = none → closeSession st sid = (false, none, st)) := by
  refine ⟨?_, ?_, ?_⟩
  · cases hq : regLookup st.sessions sid with
    | some s => simp [closeSession, hq]
    | none => simp [closeSession, hq]
  · intro s hq
    refine ⟨by simp [closeSession, hq], ?_⟩
    simp [closeSession, hq, getWorkingDirectory, regLookup_regErase]
  · intro hq
    simp [closeSession, hq]

/-- Witness for C8 on a one-session registry and on an unknown id. -/
theorem C8_close_session_witness :
    regLookup (createSession { procEnv := [], sessions := [] }
      (str "/tmp") (str "s1") 0).sessions (str "s1") =
        some { id := str "s1", working_directory := str "/tmp"
               environment := seededEnvironment [] (str "/tmp")
               current_process := none, history := [], created_at := 0
               last_activity := 0 }
    ∧ getWorkingDirectory (closeSession (createSession
        { procEnv := [], sessions := [] } (str "/tmp") (str "s1") 0)
        (str "s1")).2.2 (str "s1") = str "/" := by
  refine ⟨by decide, ?_⟩
  exact ((C8_close_session (createSession { procEnv := [], sessions := [] }
    (str "/tmp") (str "s1") 0) (str "s1")).2.1
    { id := str "s1", working_directory := str "/tmp"
      environment := seededEnvironment [] (str "/tmp")
      current_process := none, history := [], created_at := 0
      last_activity := 0 } (by decide)).2

/-- C10: `save_command_history` and `load_command_history` on an id not in the
registry return false, attempt no file I/O at all, and leave every session
unchanged; for an existing session, a failing file write or read also
returns false, and a failing read leaves the in-memory history (indeed the
whole state) unchanged. -/
theorem C10_history_io_errors (st : GState) (sid : Str) (writeOk : Bool)
    (fileContent : Option Str) :
    (regLookup st.sessions sid = none →
      saveCommandHistory st sid writeOk = { ok := false, written := none }
      ∧ loadCommandHistory st sid fileContent =
          ({ ok := false, readAttempted := false }, st))
    ∧ (∀ s, regLookup st.sessions sid = some s →
        (saveCommandHistory st sid false).ok = false
        ∧ loadCommandHistory st sid none =
            ({ ok := false, readAttempted := true }, st)) := by
  constructor
  · intro hq
    constructor
    · simp [saveCommandHistory, hq]
    · cases fileContent with
      | some c => simp [loadCommandHistory, hq]
      | none => simp [loadCommandHistory, hq]
  · intro s hq
    exact ⟨by simp [saveCommandHistory, hq], by simp [loadCommandHistory, hq]⟩

/-- Witness for C10 on an unknown id and on an existing session with failing
file I/O. -/
theorem C10_history_io_errors_witness :
    saveCommandHistory (createSession { procEnv := [], sessions := [] }
        (str "/tmp") (str "s1") 0) (str "nope") true =
      { ok := false, written := none }
    ∧ loadCommandHistory (createSession { procEnv := [], sessions := [] }
        (str "/tmp") (str "s1") 0) (str "s1") none =
      ({ ok := false, readAttempted := true },
        createSession { procEnv := [], sessions := [] } (str "/tmp") (str "s1") 0) := by
  constructor
  · exact ((C10_history_io_errors (createSession { procEnv := [], sessions := [] }
      (str "/tmp") (str "s1") 0) (str "nope") true none).1 (by decide)).1
  · exact ((C10_history_io_errors (createSession { procEnv := [], sessions := [] }
      (str "/tmp") (str "s1") 0) (str "s1") true none).2
      { id := str "s1", working_directory := str "/tmp"
        environment := seededEnvironment [] (str "/tmp")
        current_process := none, history := [], created_at := 0
        last_activity := 0 } (by decide)).2

end Terminal

namespace Terminal

/-- C4: for every working directory, a one-shot command starting with `cd `
takes the trimmed remainder as `<dir>`, resolves it relative to the working
directory (used as-is when absolute), and — spawning no process — returns
success with exit code 0, empty output and the resolved directory in the
result's working-directory field when the resolved path exists and is a
directory; otherwise failure with exactly the error line
`cd: <dir>: No such file or directory`, exit code 1, and the original
working directory echoed. -/
theorem C4_cd_builtin (fs : Fs) (now : Nat) (workingDir command : Str)
    (hcd : strStartsWith (str "cd ") command = true) :
    ((fs.pathExists (if strStartsWith (str "/") (trim (command.drop 3))
          then trim (command.drop 3)
          else pathJoin workingDir (trim (command.drop 3)))
        && fs.isDir (if strStartsWith (str "/") (trim (command.drop 3))
          then trim (command.drop 3)
          else pathJoin workingDir (trim (command.drop 3)))) = true →
      executeCommandStep fs now command workingDir = .builtin
        { success := true, output := [], error_output := [], exit_code := 0
          execution_time_ms := 0, command := command
          working_directory := if strStartsWith (str "/") (trim (command.drop 3))
            then trim (command.drop 3)
            else pathJoin workingDir (trim (command.drop 3))
          timestamp := now })
    ∧ ((fs.pathExists (if strStartsWith (str "/") (trim (command.drop 3))
          then trim (command.drop 3)
          else pathJoin workingDir (trim (command.drop 3)))
        && fs.isDir (if strStartsWith (str "/") (trim (command.drop 3))
          then trim (command.drop 3)
          else pathJoin workingDir (trim (command.drop 3)))) = false →
      executeCommandStep fs now command workingDir = .builtin
        { success := false, output := []
          error_output := [cdErrorLine (trim (command.drop 3))], exit_code := 1
          execution_time_ms := 0, command := command
          working_directory := workingDir, timestamp := now }) := by
  have hnc := trim_cd_ne_clear command hcd
  constructor
  · intro hdir
    simp [executeCommandStep, hnc, hcd, hdir]
  · intro hdir
    simp [executeCommandStep, hnc, hcd, hdir]

/-- Witness for C4: `cd /ok` succeeds against a filesystem where `/ok` is a
directory, and `cd /nope` fails with the POSIX-style message against a
filesystem with no directories. -/
theorem C4_cd_builtin_witness :
    strStartsWith (str "cd ") (str "cd /nope") = true
    ∧ executeCommandStep { pathExists := fun _ => false, isDir := fun _ => false }
        7 (str "cd /nope") (str "/tmp") = .builtin
      { success := false, output := []
        error_output := [cdErrorLine (str "/nope")], exit_code := 1
        execution_time_ms := 0, command := str "cd /nope"
        working_directory := str "/tmp", timestamp := 7 } := by
  refine ⟨by decide, ?_⟩
  have h := (C4_cd_builtin { pathExists := fun _ => false, isDir := fun _ => false }
    7 (str "/tmp") (str "cd /nope") (by decide)).2 (by decide)
  exact h

/-- C9: the one-shot executor treats a command as the `cd` built-in exactly
when it starts with the characters `cd ` (or when its trimmed text is
`clear`, for the clear built-in): the dispatch produces a builtin result if
and only if one of those holds; the bare command `cd` is not a built-in and
is handed to `sh -c` like any ordinary command; `clear` is matched on the
trimmed command text; and when a `cd ` command fails, the quoted directory in
the error line is the entire trimmed remainder after `cd `, shell
metacharacters included. -/
theorem C9_dispatch (fs : Fs) (now : Nat) (workingDir command : Str) :
    ((∃ out, executeCommandStep fs now command workingDir = .builtin out) ↔
      (trim command = str "clear" ∨ strStartsWith (str "cd ") command = true))
    ∧ executeCommandStep fs now (str "cd") workingDir = .shell (str "cd")
    ∧ (trim command = str "clear" →
        executeCommandStep fs now command workingDir = .builtin
          { success := true, output := [], error_output := [], exit_code := 0
            execution_time_ms := 0, command := command
            working_directory := workingDir, timestamp := now })
    ∧ (∀ (hcd : strStartsWith (str "cd ") command = true) out,
        executeCommandStep fs now command workingDir = .builtin out →
        out.success = false →
        out.error_output = [cdErrorLine (trim (command.drop 3))]) := by
  refine ⟨?_, ?_, ?_, ?_⟩
  · constructor
    · rintro ⟨out, hout⟩
      by_cases h1 : trim command = str "clear"
      · exact Or.inl h1
      · by_cases h2 : strStartsWith (str "cd ") command = true
        · exact Or.inr h2
        · simp [executeCommandStep, h1, h2] at hout
    · rintro (h1 | h2)
      · exact ⟨{ success := true, output := [], error_output := [], exit_code := 0
                 execution_time_ms := 0, command := command
                 working_directory := workingDir, timestamp := now },
          by simp [executeCommandStep, h1]⟩
      · have hnc := trim_cd_ne_clear command h2
        by_cases hdir : (fs.pathExists (if strStartsWith (str "/")
              (trim (command.drop 3)) then trim (command.drop 3)
              else pathJoin workingDir (trim (command.drop 3)))
            && fs.isDir (if strStartsWith (str "/") (trim (command.drop 3))
              then trim (command.drop 3)
              else pathJoin workingDir (trim (command.drop 3)))) = true
        · exact ⟨{ success := true, output := [], error_output := [], exit_code := 0
                   execution_time_ms := 0, command := command
                   working_directory := if strStartsWith (str "/")
                       (trim (command.drop 3)) then trim (command.drop 3)
                     else pathJoin workingDir (trim (command.drop 3))
                   timestamp := now },
            by simp [executeCommandStep, hnc, h2, hdir]⟩
        · exact ⟨{ success := false, output := []
                   error_output := [cdErrorLine (trim (command.drop 3))]
                   exit_code := 1, execution_time_ms := 0, command := command
                   working_directory := workingDir, timestamp := now },
            by simp [executeCommandStep, hnc, h2, (Bool.not_eq_true _).mp hdir]⟩
  · have hc1 : ¬trim (str "cd") = str "clear" := by decide
    have hc2 : strStartsWith (str "cd ") (str "cd") = false := by decide
    simp [executeCommandStep, hc1, hc2]
  · intro h1
    simp [executeCommandStep, h1]
  · intro hcd out hout hfail
    have hnc := trim_cd_ne_clear command hcd
    by_cases hdir : (fs.pathExists (if strStartsWith (str "/")
          (trim (command.drop 3)) then trim (command.drop 3)
          else pathJoin workingDir (trim (command.drop 3)))
        && fs.isDir (if strStartsWith (str "/") (trim (command.drop 3))
          then trim (command.drop 3)
          else pathJoin workingDir (trim (command.drop 3)))) = true
    · simp [executeCommandStep, hnc, hcd, hdir] at hout
      rw [← hout] at hfail
      simp at hfail
    · simp [executeCommandStep, hnc, hcd, (Bool.not_eq_true _).mp hdir] at hout
      rw [← hout]

/-- Witness for C9: the error line for `cd /a && ls` quotes the whole trimmed
remainder `/a && ls`, metacharacters included. -/
theorem C9_dispatch_witness :
    executeCommandStep { pathExists := fun _ => false, isDir := fun _ => false }
        3 (str "cd /a && ls") (str "/tmp") = .builtin
      { success := false, output := []
        error_output := [cdErrorLine (str "/a && ls")], exit_code := 1
        execution_time_ms := 0, command := str "cd /a && ls"
        working_directory := str "/tmp", timestamp := 3 }
    ∧ (str "cd: /a && ls: No such file or directory") = cdErrorLine (str "/a && ls") := by
  constructor
  · have h := (C9_dispatch { pathExists := fun _ => false, isDir := fun _ => false }
      3 (str "/tmp") (str "cd /a && ls")).2.2.2 (by decide)
    have hstep : executeCommandStep
        { pathExists := fun _ => false, isDir := fun _ => false }
        3 (str "cd /a && ls") (str "/tmp") = .builtin
      { success := false, output := []
        error_output := [cdErrorLine (str "/a && ls")], exit_code := 1
        execution_time_ms := 0, command := str "cd /a && ls"
        working_directory := str "/tmp", timestamp := 3 } := by decide
    exact hstep
  · decide

end Terminal

namespace Terminal

/-- C3: a session owns at most one process (its `current_process` is an
`Option`), and `start_interactive_shell` on a session that owns a process
fails with the "already running" message and leaves the whole state
untouched; in particular, starting twice in a row on a fresh session (with no
intervening stop or exit) succeeds the first time, fails the second time, and
the first call's process remains owned by the session. -/
theorem C3_start_shell_exclusive (st : GState) (sid : Str) (s : TerminalSession)
    (hs : regLookup st.sessions sid = some s) (hnone : s.current_process = none)
    (now1 now2 : Nat) (pid : Nat) (spawn2 : Option Nat)
    (err1 err2 : String) (sp1 sp2 : Str) :
    (startInteractiveShell st sid now1 (some pid) err1 sp1).1.success = true
    ∧ regLookup (startInteractiveShell st sid now1 (some pid) err1 sp1).2.sessions sid =
        some { s with
          current_process := some
            { pid := pid, stdinPresent := true, stdoutReaderPresent := true
              stderrReaderPresent := true, command := str "interactive shell"
              start_time := now1 }
          last_activity := now1 }
    ∧ (startInteractiveShell (startInteractiveShell st sid now1 (some pid) err1 sp1).2
          sid now2 spawn2 err2 sp2).1.success = false
    ∧ (startInteractiveShell (startInteractiveShell st sid now1 (some pid) err1 sp1).2
          sid now2 spawn2 err2 sp2).1.message =
        "A process is already running in this session"
    ∧ (startInteractiveShell (startInteractiveShell st sid now1 (some pid) err1 sp1).2
          sid now2 spawn2 err2 sp2).2 =
        (startInteractiveShell st sid now1 (some pid) err1 sp1).2
    ∧ (∀ (st' : GState) (sid' : Str) (s' : TerminalSession) (p' : TerminalProcess),
        regLookup st'.sessions sid' = some s' → s'.current_process = some p' →
        startInteractiveShell st' sid' now2 spawn2 err2 sp2 =
          ({ success := false
             message := "A process is already running in this session"
             shell_path := none }, st')) := by
  have hgen : ∀ (st' : GState) (sid' : Str) (s' : TerminalSession) (p' : TerminalProcess),
      regLookup st'.sessions sid' = some s' → s'.current_process = some p' →
      startInteractiveShell st' sid' now2 spawn2 err2 sp2 =
        ({ success := false
           message := "A process is already running in this session"
           shell_path := none }, st') := by
    intro st' sid' s' p' hq hp
    simp [startInteractiveShell, hq, hp]
  have h1 : (startInteractiveShell st sid now1 (some pid) err1 sp1).1.success = true := by
    simp [startInteractiveShell, hs, hnone]
  have h2 : regLookup (startInteractiveShell st sid now1 (some pid) err1 sp1).2.sessions sid =
      some { s with
        current_process := some
          { pid := pid, stdinPresent := true, stdoutReaderPresent := true
            stderrReaderPresent := true, command := str "interactive shell"
            start_time := now1 }
        last_activity := now1 } := by
    simp [startInteractiveShell, hs, hnone, regLookup_regUpdate]
  have hsecond := hgen (startInteractiveShell st sid now1 (some pid) err1 sp1).2 sid _ _ h2 rfl
  exact ⟨h1, h2, by rw [hsecond], by rw [hsecond], by rw [hsecond], hgen⟩

/-- Witness for C3: a concrete double start on a freshly created session. -/
theorem C3_start_shell_exclusive_witness :
    (startInteractiveShell ((startInteractiveShell (createSession
        { procEnv := [], sessions := [] } (str "/tmp") (str "s1") 0)
        (str "s1") 1 (some 41) "" (str "/bin/sh")).2)
        (str "s1") 2 (some 42) "" (str "/bin/sh")).1.success = false
    ∧ (startInteractiveShell ((startInteractiveShell (createSession
        { procEnv := [], sessions := [] } (str "/tmp") (str "s1") 0)
        (str "s1") 1 (some 41) "" (str "/bin/sh")).2)
        (str "s1") 2 (some 42) "" (str "/bin/sh")).1.message =
      "A process is already running in this session" := by
  have h := C3_start_shell_exclusive (createSession
      { procEnv := [], sessions := [] } (str "/tmp") (str "s1") 0) (str "s1")
      { id := str "s1", working_directory := str "/tmp"
        environment := seededEnvironment [] (str "/tmp")
        current_process := none, history := [], created_at := 0
        last_activity := 0 } (by decide) rfl 1 2 41 (some 42) "" "" (str "/bin/sh")
      (str "/bin/sh")
  exact ⟨h.2.2.1, h.2.2.2.1⟩

/-- C5: `send_input` appends the line to the session's history and updates
last activity exactly when the stdin write succeeds; on a write failure, an
absent stdin handle, an absent process, or an unknown session it returns the
corresponding descriptive failure and leaves the state (history included)
unchanged; and across any sequence of `send_input` calls the history grows by
exactly the successfully written lines, in call order. -/
theorem C5_send_input (st : GState) (sid input : Str) (now : Nat) (writeErr : String) :
    (∀ s pr, regLookup st.sessions sid = some s → s.current_process = some pr →
      pr.stdinPresent = true →
      sendInput st sid input now true writeErr =
        ({ success := true, message := "Input sent to shell" },
          { st with sessions := regUpdate st.sessions sid (fun s0 =>
              { s0 with history := s0.history ++ [input], last_activity := now }) })
      ∧ regLookup (sendInput st sid input now true writeErr).2.sessions sid =
          some { s with history := s.history ++ [input], last_activity := now })
    ∧ (∀ s pr, regLookup st.sessions sid = some s → s.current_process = some pr →
        pr.stdinPresent = true →
        sendInput st sid input now false writeErr =
          ({ success := false
             message := "Failed to send input to shell: " ++ writeErr }, st))
    ∧ (∀ s pr writeOk, regLookup st.sessions sid = some s →
        s.current_process = some pr → pr.stdinPresent = false →
        sendInput st sid input now writeOk writeErr =
          ({ success := false, message := "Shell stdin not available" }, st))
    ∧ (∀ s writeOk, regLookup st.sessions sid = some s → s.current_process = none →
        sendInput st sid input now writeOk writeErr =
          ({ success := false
             message := "No interactive shell running in this session" }, st))
    ∧ (∀ writeOk, regLookup st.sessions sid = none →
        sendInput st sid input now writeOk writeErr =
          ({ success := false, message := "Session not found" }, st))
    ∧ (∀ (events : List (Str × Bool)) s pr,
        regLookup st.sessions sid = some s → s.current_process = some pr →
        pr.stdinPresent = true →
        ∃ s', regLookup (runSendInputs st sid events now writeErr).sessions sid = some s'
          ∧ s'.history = s.history ++ (events.filter (fun e => e.2)).map (fun e => e.1)) := by
  refine ⟨?_, ?_, ?_, ?_, ?_, ?_⟩
  · intro s pr hs hp hstdin
    constructor
    · simp [sendInput, hs, hp, hstdin]
    · simp [sendInput, hs, hp, hstdin, regLookup_regUpdate]
  · intro s pr hs hp hstdin
    simp [sendInput, hs, hp, hstdin]
  · intro s pr writeOk hs hp hstdin
    simp [sendInput, hs, hp, hstdin]
  · intro s writeOk hs hp
    simp [sendInput, hs, hp]
  · intro writeOk hq
    simp [sendInput, hq]
  · intro events s pr hs hp hstdin
    obtain ⟨s', h1, h2, h3⟩ :=
      runSendInputs_history events st sid now writeErr s pr hs hp hstdin
    exact ⟨s', h1, h2⟩

/-- Witness for C5: a successful send followed by a failed send on a session
with a live shell; the history gains exactly the successful line. -/
theorem C5_send_input_witness :
    ∃ s', regLookup (runSendInputs ((startInteractiveShell (createSession
        { procEnv := [], sessions := [] } (str "/tmp") (str "s1") 0)
        (str "s1") 1 (some 9) "" (str "/bin/sh")).2) (str "s1")
        [(str "ls", true), (str "pwd", false)] 2 "broken pipe").sessions
        (str "s1") = some s'
      ∧ s'.history = [str "ls"] := by
  have h := (C5_send_input ((startInteractiveShell (createSession
      { procEnv := [], sessions := [] } (str "/tmp") (str "s1") 0)
      (str "s1") 1 (some 9) "" (str "/bin/sh")).2) (str "s1") (str "x") 2
      "broken pipe").2.2.2.2.2 [(str "ls", true), (str "pwd", false)]
      { id := str "s1", working_directory := str "/tmp"
        environment := seededEnvironment [] (str "/tmp")
        current_process := some
          { pid := 9, stdinPresent := true, stdoutReaderPresent := true
            stderrReaderPresent := true, command := str "interactive shell"
            start_time := 1 }
        history := [], created_at := 0, last_activity := 1 }
      { pid := 9, stdinPresent := true, stdoutReaderPresent := true
        stderrReaderPresent := true, command := str "interactive shell"
        start_time := 1 } (by decide) rfl rfl
  obtain ⟨s', h1, h2⟩ := h
  exact ⟨s', h1, by rw [h2]; decide⟩

end Terminal

namespace Terminal

/-- C2: for every session existing in a reachable registry state and every
target string, `change_directory` resolves the target exactly as the
specification describes (absolute as-is; `~`/`$HOME` to the session's `HOME`
entry or root when unset; `~/`-style prefixes under that base; anything else
under the current working directory — every reachable session in fact carries
`HOME`), returns true and mutates exactly the session's working directory and
last activity when the resolved path exists and is a directory, and otherwise
returns false leaving the state entirely unchanged. -/
theorem C2_change_directory (env0 : Env) (st : GState) (hreach : Reachable env0 st)
    (sid : Str) (s : TerminalSession) (hs : regLookup st.sessions sid = some s)
    (target : Str) (fs : Fs) (now : Nat) :
    ((changeDirectory fs now st sid target).1 =
      (fs.pathExists (resolveTargetSpec (envLookup s.environment (str "HOME"))
          s.working_directory target)
        && fs.isDir (resolveTargetSpec (envLookup s.environment (str "HOME"))
          s.working_directory target)))
    ∧ ((fs.pathExists (resolveTargetSpec (envLookup s.environment (str "HOME"))
          s.working_directory target)
        && fs.isDir (resolveTargetSpec (envLookup s.environment (str "HOME"))
          s.working_directory target)) = true →
        (changeDirectory fs now st sid target).2 =
          { st with sessions := regUpdate st.sessions sid (fun s0 =>
              { s0 with
                working_directory :=
                  resolveTargetSpec (envLookup s.environment (str "HOME"))
                    s.working_directory target
                last_activity := now }) }
        ∧ regLookup (changeDirectory fs now st sid target).2.sessions sid =
            some { s with
              working_directory :=
                resolveTargetSpec (envLookup s.environment (str "HOME"))
                  s.working_directory target
              last_activity := now })
    ∧ ((fs.pathExists (resolveTargetSpec (envLookup s.environment (str "HOME"))
          s.working_directory target)
        && fs.isDir (resolveTargetSpec (envLookup s.environment (str "HOME"))
          s.working_directory target)) = false →
        (changeDirectory fs now st sid target).2 = st) := by
  obtain ⟨q, hfind, hq2⟩ :
      ∃ q, st.sessions.find? (fun p => p.1 == sid) = some q ∧ q.2 = s :=
    Option.map_eq_some'.mp (by simpa [regLookup] using hs)
  have hmem : q ∈ st.sessions := List.mem_of_find?_eq_some hfind
  have hhome := homeSet_of_reachable env0 st hreach q hmem
  rw [hq2] at hhome
  obtain ⟨home, hhome2⟩ := Option.isSome_iff_exists.mp hhome
  have heq := resolveDirectory_eq_spec s.environment s.working_directory target home hhome2
  refine ⟨?_, ?_, ?_⟩
  · by_cases hguard : (fs.pathExists (resolveTargetSpec
        (envLookup s.environment (str "HOME")) s.working_directory target)
      && fs.isDir (resolveTargetSpec (envLookup s.environment (str "HOME"))
        s.working_directory target)) = true
    · simp [changeDirectory, hs, heq, hguard]
    · simp [changeDirectory, hs, heq, (Bool.not_eq_true _).mp hguard]
  · intro hguard
    constructor
    · simp [changeDirectory, hs, heq, hguard]
    · simp [changeDirectory, hs, heq, hguard, regLookup_regUpdate]
  · intro hguard
    simp [changeDirectory, hs, heq, hguard]

/-- Witness for C2: on a reachable one-session registry with
`HOME = /tmp`, changing directory to `~` against a filesystem where `/tmp`
is a directory succeeds and sets the working directory to `/tmp`. -/
theorem C2_change_directory_witness :
    (changeDirectory
        { pathExists := fun p => p == str "/tmp", isDir := fun p => p == str "/tmp" } 5
        (createSession { procEnv := [], sessions := [] } (str "/tmp") (str "s1") 0)
        (str "s1") (str "~")).1 = true
    ∧ ∃ s', regLookup (changeDirectory
        { pathExists := fun p => p == str "/tmp", isDir := fun p => p == str "/tmp" } 5
        (createSession { procEnv := [], sessions := [] } (str "/tmp") (str "s1") 0)
        (str "s1") (str "~")).2.sessions (str "s1") = some s'
      ∧ s'.working_directory = str "/tmp" ∧ s'.last_activity = 5 := by
  have h := C2_change_directory [] (createSession
      { procEnv := [], sessions := [] } (str "/tmp") (str "s1") 0)
      (Reachable.create _ _ _ _ Reachable.init) (str "s1")
      { id := str "s1", working_directory := str "/tmp"
        environment := seededEnvironment [] (str "/tmp")
        current_process := none, history := [], created_at := 0
        last_activity := 0 } (by decide) (str "~")
      { pathExists := fun p => p == str "/tmp", isDir := fun p => p == str "/tmp" } 5
  refine ⟨?_, ?_⟩
  · rw [h.1]
    decide
  · exact ⟨_, (h.2.1 (by decide)).2, by decide, by decide⟩

end Terminal

namespace Terminal

/-- C7 counterexample: after `set_env_var("TERM","foo")`, a session created
afterwards observes `TERM=xterm-256color`, not `foo`, because
`create_session` overwrites `TERM` (and `LANG`, `HOME`, `PS1`, `HISTSIZE`,
`HISTFILESIZE`) with its own synthesized defaults after copying the
process-wide environment; so the claim fails for those names. -/
theorem C7_counterexample :
    (regLookup (createSession (setEnvironmentVariable
        { procEnv := [], sessions := [] } (str "TERM") (str "foo"))
        (str "/tmp") (str "s1") 0).sessions (str "s1")).map
      (fun s => envLookup s.environment (str "TERM"))
      = some (some (str "xterm-256color"))
    ∧ some (some (str "xterm-256color")) ≠ some (some (str "foo")) := by
  exact ⟨by decide, by decide⟩

/-- C7 (amended): after `set_env_var(name, value)` returns, every session
existing at the time of the call maps `name` to `value` in its environment
copy, and the process-wide environment maps `name` to `value`; a session
created afterwards also observes `name = value` in its seeded environment
provided `name` is none of the six names `TERM`, `LANG`, `HOME`, `PS1`,
`HISTSIZE`, `HISTFILESIZE` that `create_session` overwrites with its own
defaults (`HOME` in particular is always reset to the new session's initial
working directory). -/
theorem C7_set_env_var (st : GState) (name value : Str) :
    (∀ p ∈ (setEnvironmentVariable st name value).sessions,
      envLookup p.2.environment name = some value)
    ∧ envLookup (setEnvironmentVariable st name value).procEnv name = some value
    ∧ (∀ wd sid now,
        name ≠ str "TERM" → name ≠ str "LANG" → name ≠ str "HOME" →
        name ≠ str "PS1" → name ≠ str "HISTSIZE" → name ≠ str "HISTFILESIZE" →
        (regLookup (createSession (setEnvironmentVariable st name value)
            wd sid now).sessions sid).map
          (fun s => envLookup s.environment name) = some (some value)) := by
  refine ⟨?_, ?_, ?_⟩
  · intro p hp
    rcases List.mem_map.mp hp with ⟨q, hq, hpq⟩
    subst hpq
    simp [envLookup_envInsert]
  · simp [setEnvironmentVariable, envLookup_envInsert]
  · intro wd sid now h1 h2 h3 h4 h5 h6
    have hcons : (createSession (setEnvironmentVariable st name value)
        wd sid now).sessions
        = (sid, { id := sid, working_directory := wd
                  environment := seededEnvironment
                    (setEnvironmentVariable st name value).procEnv wd
                  current_process := none, history := []
                  created_at := now, last_activity := now })
          :: (setEnvironmentVariable st name value).sessions := rfl
    rw [hcons, regLookup_cons, if_pos rfl]
    simp only [Option.map_some]
    simp [seededEnvironment, envLookup_envInsert, setEnvironmentVariable
      , (Ne.symm h1), (Ne.symm h2), (Ne.symm h3), (Ne.symm h4), (Ne.symm h5), (Ne.symm h6)]

/-- Witness for C7 (amended) at name `FOO`, which is none of the six seeded
defaults: both an existing session and a freshly created session observe
`FOO=bar`. -/
theorem C7_set_env_var_witness :
    (∀ p ∈ (setEnvironmentVariable (createSession
        { procEnv := [], sessions := [] } (str "/tmp") (str "s1") 0)
        (str "FOO") (str "bar")).sessions,
      envLookup p.2.environment (str "FOO") = some (str "bar"))
    ∧ (regLookup (createSession (setEnvironmentVariable (createSession
        { procEnv := [], sessions := [] } (str "/tmp") (str "s1") 0)
        (str "FOO") (str "bar")) (str "/w") (str "s2") 3).sessions (str "s2")).map
      (fun s => envLookup s.environment (str "FOO")) = some (some (str "bar")) := by
  have h := C7_set_env_var (createSession
      { procEnv := [], sessions := [] } (str "/tmp") (str "s1") 0)
      (str "FOO") (str "bar")
  exact ⟨h.1, h.2.2 (str "/w") (str "s2") 3 (by decide) (by decide) (by decide)
    (by decide) (by decide) (by decide)⟩

end Terminal

namespace Terminal

theorem events_all_true (lines : List Str) :
    ((lines.map (fun l => (l, true))).filter (fun e => e.2)).map (fun e => e.1)
      = lines := by
  induction lines with
  | nil => rfl
  | cons a t ih => simp [ih]

/-- C6 counterexample: submitting the single empty line to a session, saving
its history (which writes the empty file content, since joining `[""]` with
newlines is empty), and loading that content into a fresh session yields the
empty history, not `[""]`: the round-trip loses the empty line. -/
theorem C6_counterexample :
    (regLookup ((sendInput ((startInteractiveShell (createSession
        { procEnv := [], sessions := [] } (str "/tmp") (str "s1") 0)
        (str "s1") 0 (some 7) "" (str "/bin/sh")).2) (str "s1") [] 0 true "").2).sessions
      (str "s1")).map TerminalSession.history = some [[]]
    ∧ saveCommandHistory ((sendInput ((startInteractiveShell (createSession
        { procEnv := [], sessions := [] } (str "/tmp") (str "s1") 0)
        (str "s1") 0 (some 7) "" (str "/bin/sh")).2) (str "s1") [] 0 true "").2)
      (str "s1") true = { ok := true, written := some [] }
    ∧ (regLookup ((loadCommandHistory (createSession
        { procEnv := [], sessions := [] } (str "/x") (str "s2") 0)
        (str "s2") (some [])).2).sessions (str "s2")).map TerminalSession.history
      = some []
    ∧ some ([] : List Str) ≠ some [([] : Str)] := by
  exact ⟨by decide, by decide, by decide, by decide⟩

/-- C6 (amended): for every sequence of input lines successfully submitted
via `send_input` to a session with empty history, saving that session's
history to a file and loading the file into any fresh session reproduces the
submitted sequence in order, provided no submitted line contains a newline
character, no line other than the last ends with a carriage return (the last
line, left unterminated in the file, keeps one), and the final submitted
line (if any) is nonempty; an empty final line, or a line embedding a
newline, or a non-final line ending in a carriage return, is not recovered
by the load. -/
theorem C6_history_round_trip (st : GState) (sid : Str) (s : TerminalSession)
    (pr : TerminalProcess) (now : Nat) (writeErr : String) (lines : List Str)
    (hs : regLookup st.sessions sid = some s) (hpr : s.current_process = some pr)
    (hstdin : pr.stdinPresent = true) (hhist : s.history = [])
    (hnl : ∀ l ∈ lines, '\n' ∉ l)
    (hcr : ∀ l ∈ lines.dropLast, stripCR l = l)
    (hlast : lines.getLast? ≠ some [])
    (st2 : GState) (sid2 : Str) (s2 : TerminalSession)
    (hs2 : regLookup st2.sessions sid2 = some s2) :
    ∃ content,
      saveCommandHistory
          (runSendInputs st sid (lines.map (fun l => (l, true))) now writeErr)
          sid true = { ok := true, written := some content }
      ∧ regLookup ((loadCommandHistory st2 sid2 (some content)).2).sessions sid2
          = some { s2 with history := lines } := by
  obtain ⟨s', h1, h2, h3⟩ := runSendInputs_history (lines.map (fun l => (l, true)))
    st sid now writeErr s pr hs hpr hstdin
  have hhist2 : s'.history = lines := by
    rw [h2, hhist, events_all_true]
    rfl
  refine ⟨joinNl lines, ?_, ?_⟩
  · simp [saveCommandHistory, h1, hhist2]
  · have hload : rustLines (joinNl lines) = lines :=
      rustLines_joinNl lines hnl hcr hlast
    simp [loadCommandHistory, hs2, regLookup_regUpdate, hload]

/-- Witness for the amended C6: the two lines `b` and `a\r` (the second
ending in a carriage return, kept because it is the final, unterminated
line of the saved file) survive the save/load round-trip into a fresh
session. -/
theorem C6_history_round_trip_witness :
    ∃ content,
      saveCommandHistory
          (runSendInputs ((startInteractiveShell (createSession
              { procEnv := [], sessions := [] } (str "/tmp") (str "s1") 0)
              (str "s1") 1 (some 9) "" (str "/bin/sh")).2) (str "s1")
            ([str "b", str "a\r"].map (fun l => (l, true))) 2 "")
          (str "s1") true = { ok := true, written := some content }
      ∧ regLookup ((loadCommandHistory (createSession
            { procEnv := [], sessions := [] } (str "/y") (str "s2") 4)
            (str "s2") (some content)).2).sessions (str "s2")
          = some { id := str "s2", working_directory := str "/y"
                   environment := seededEnvironment [] (str "/y")
                   current_process := none, history := [str "b", str "a\r"]
                   created_at := 4, last_activity := 4 } := by
  exact C6_history_round_trip ((startInteractiveShell (createSession
      { procEnv := [], sessions := [] } (str "/tmp") (str "s1") 0)
      (str "s1") 1 (some 9) "" (str "/bin/sh")).2) (str "s1")
    { id := str "s1", working_directory := str "/tmp"
      environment := seededEnvironment [] (str "/tmp")
      current_process := some
        { pid := 9, stdinPresent := true, stdoutReaderPresent := true
          stderrReaderPresent := true, command := str "interactive shell"
          start_time := 1 }
      history := [], created_at := 0, last_activity := 1 }
    { pid := 9, stdinPresent := true, stdoutReaderPresent := true
      stderrReaderPresent := true, command := str "interactive shell"
      start_time := 1 } 2 "" [str "b", str "a\r"] (by decide) rfl rfl rfl
    (by decide) (by decide) (by decide)
    (createSession { procEnv := [], sessions := [] } (str "/y") (str "s2") 4)
    (str "s2")
    { id := str "s2", working_directory := str "/y"
      environment := seededEnvironment [] (str "/y")
      current_process := none, history := [], created_at := 4, last_activity := 4 }
    (by decide)

end Terminal
